import Mathlib

/-!
# Verification of the pact-plugins Rust driver core

A shallow embedding of the plugin orchestration layer of the pact-plugins
Rust driver: the catalogue registry (`catalogue_manager.rs`) and the plugin
lifecycle manager (`plugin_manager.rs`).

The global `HashMap` registers guarded by mutexes are modelled as
association lists threaded through the functions as explicit state; the
effectful collaborators (disk scan for manifests, process spawn, RPC
handshake) are modelled by an environment record that fixes their outcomes.
-/

namespace PactPlugins

/-! ## Association-list model of Rust HashMap -/

/-- Lookup in an association list: the value paired with the first
occurrence of the key, mirroring `HashMap::get`. -/
def alLookup {α : Type} (k : String) : List (String × α) → Option α
  | [] => none
  | (k₁, v) :: rest => if k₁ = k then some v else alLookup k rest

/-- Insert into an association list, replacing the first binding of the key
if present, mirroring `HashMap::insert`. -/
def alInsert {α : Type} (k : String) (v : α) : List (String × α) → List (String × α)
  | [] => [(k, v)]
  | (k₁, v₁) :: rest => if k₁ = k then (k, v) :: rest else (k₁, v₁) :: alInsert k v rest

/-- Remove all bindings of a key, mirroring `HashMap::remove`. -/
def alRemove {α : Type} (k : String) (l : List (String × α)) : List (String × α) :=
  l.filter (fun kv => kv.1 != k)

/-- The set of keys of an association list. -/
def alKeys {α : Type} (l : List (String × α)) : List String :=
  l.map Prod.fst

/-- Byte-wise prefix test on strings, mirroring Rust `str::starts_with`. -/
def strStartsWith (s pfx : String) : Bool :=
  pfx.data.isPrefixOf s.data

/-- Split a character list at every occurrence of a separator character,
mirroring Rust `str::split(c)` (always returns at least one group). -/
def splitOnChar (sep : Char) : List Char → List (List Char)
  | [] => [[]]
  | c :: rest =>
    if c = sep then [] :: splitOnChar sep rest
    else
      match splitOnChar sep rest with
      | [] => [[c]]
      | g :: gs => (c :: g) :: gs

/-- ASCII whitespace test, the fragment of Rust `char::is_whitespace`
relevant to the content types handled here. -/
def isWS (c : Char) : Bool :=
  c = ' ' || c = '\t' || c = '\n' || c = '\r'

/-- Trim leading and trailing whitespace, mirroring Rust `str::trim`. -/
def trimChars (l : List Char) : List Char :=
  ((l.dropWhile isWS).reverse.dropWhile isWS).reverse

/-! ## Catalogue data model (`catalogue_manager.rs`) -/

/-- `CatalogueEntryType` from `catalogue_manager.rs`. -/
inductive CatalogueEntryType where
  /-- Content matcher (based on content type) -/
  | CONTENT_MATCHER
  /-- Content generator (based on content type) -/
  | CONTENT_GENERATOR
  /-- Mock server -/
  | MOCK_SERVER
  /-- Matching rule -/
  | MATCHER
  /-- Interaction -/
  | INTERACTION
deriving DecidableEq, BEq, Repr

/-- The `Display` implementation for `CatalogueEntryType`. -/
def CatalogueEntryType.display : CatalogueEntryType → String
  | .CONTENT_MATCHER => "content-matcher"
  | .CONTENT_GENERATOR => "content-generator"
  | .MOCK_SERVER => "mock-server"
  | .MATCHER => "matcher"
  | .INTERACTION => "interaction"

/-- `impl From<&str> for CatalogueEntryType`. The source `panic!`s on any
string other than the five recognised names; the panic is modelled as
`none`, a recognised name as `some`. -/
def CatalogueEntryType.fromStr (s : String) : Option CatalogueEntryType :=
  if s = "content-matcher" then some .CONTENT_MATCHER
  else if s = "content-generator" then some .CONTENT_GENERATOR
  else if s = "interaction" then some .INTERACTION
  else if s = "matcher" then some .MATCHER
  else if s = "mock-server" then some .MOCK_SERVER
  else none

/-- `EntryType` from the generated protobuf module (`crate::proto`). -/
inductive EntryType where
  | ContentMatcher
  | ContentGenerator
  | MockServer
  | Matcher
  | Interaction
deriving DecidableEq, Repr

/-- `impl From<EntryType> for CatalogueEntryType` (total, never panics). -/
def CatalogueEntryType.fromProto : EntryType → CatalogueEntryType
  | .ContentMatcher => .CONTENT_MATCHER
  | .ContentGenerator => .CONTENT_GENERATOR
  | .MockServer => .MOCK_SERVER
  | .Matcher => .MATCHER
  | .Interaction => .INTERACTION

/-- `CatalogueEntryProviderType` from `catalogue_manager.rs`. -/
inductive CatalogueEntryProviderType where
  /-- Core Pact framework -/
  | CORE
  /-- Plugin -/
  | PLUGIN
deriving DecidableEq, BEq, Repr

/-- `PactPluginManifest` from `plugin_models.rs` (declared by `lib.rs`; the
fields are those read by `plugin_manager.rs` and `catalogue_manager.rs`:
`name`, `version`, `executable_type`, `entry_point`, `entry_points`,
`plugin_dir`). The `entry_points` map is modelled as an association list. -/
structure PactPluginManifest where
  name : String
  version : String
  executable_type : String
  entry_point : String
  entry_points : List (String × String)
  plugin_dir : String
deriving DecidableEq, Repr

/-- `CatalogueEntry` from `catalogue_manager.rs`; the `values` HashMap is
modelled as an association list. -/
structure CatalogueEntry where
  entry_type : CatalogueEntryType
  provider_type : CatalogueEntryProviderType
  plugin : Option PactPluginManifest
  key : String
  values : List (String × String)
deriving DecidableEq, Repr

/-- `CatalogueEntry` from the generated protobuf module (the handshake
response entries): a type tag, a key and a string-to-string value map.
The Rust field `r#type` is named `rtype` here. -/
structure ProtoCatalogueEntry where
  rtype : EntryType
  key : String
  values : List (String × String)
deriving DecidableEq, Repr

/-- The catalogue register: the contents of the global
`CATALOGUE_REGISTER` HashMap. -/
abbrev CatalogueRegister := List (String × CatalogueEntry)

/-- The namespaced key derived for a plugin-provided entry in
`register_plugin_entries`: `plugin/<pluginName>/<entryType>/<key>`. -/
def plugin_entry_key (plugin : PactPluginManifest) (entry : ProtoCatalogueEntry) : String :=
  "plugin/" ++ plugin.name ++ "/" ++ (CatalogueEntryType.fromProto entry.rtype).display
    ++ "/" ++ entry.key

/-- The `CatalogueEntry` value built for a plugin-provided entry in
`register_plugin_entries`. -/
def plugin_entry_value (plugin : PactPluginManifest) (entry : ProtoCatalogueEntry) : CatalogueEntry :=
  { entry_type := CatalogueEntryType.fromProto entry.rtype
    provider_type := .PLUGIN
    plugin := some plugin
    key := plugin_entry_key plugin entry
    values := entry.values }

/-- `register_plugin_entries` from `catalogue_manager.rs`: each handshake
entry is inserted (overwriting) under its derived namespaced key. -/
def register_plugin_entries (plugin : PactPluginManifest)
    (catalogue_list : List ProtoCatalogueEntry) (cat : CatalogueRegister) : CatalogueRegister :=
  catalogue_list.foldl
    (fun acc entry => alInsert (plugin_entry_key plugin entry) (plugin_entry_value plugin entry) acc)
    cat

/-- The namespaced key derived for a core entry in `register_core_entries`:
`core/<entryType>/<key>`. -/
def core_entry_key (entry : CatalogueEntry) : String :=
  "core/" ++ entry.entry_type.display ++ "/" ++ entry.key

/-- One iteration of the loop of `register_core_entries`: insert the entry
under its derived key only if that key is not already present, recording
the key as updated when it is inserted. -/
def core_step (acc : CatalogueRegister × List String) (entry : CatalogueEntry) :
    CatalogueRegister × List String :=
  let key := core_entry_key entry
  if (alLookup key acc.1).isSome then acc
  else (alInsert key entry acc.1, key :: acc.2)

/-- `register_core_entries` from `catalogue_manager.rs`: each entry is
inserted under its derived key only if that key is not already present;
the set of newly added keys is returned alongside the updated register
(the source accumulates them in `updated_keys`). -/
def register_core_entries (entries : List CatalogueEntry) (cat : CatalogueRegister) :
    CatalogueRegister × List String :=
  entries.foldl core_step (cat, [])

/-- `remove_plugin_entries` from `catalogue_manager.rs`: collect every key
with prefix `plugin/<name>/`, then remove each collected key. -/
def remove_plugin_entries (name : String) (cat : CatalogueRegister) : CatalogueRegister :=
  let pfx := "plugin/" ++ name ++ "/"
  let keys := (alKeys cat).filter (fun key => strStartsWith key pfx)
  keys.foldl (fun acc key => alRemove key acc) cat

/-! ## Regular-expression matching (`matches_pattern`)

`matches_pattern` delegates to the external `regex` crate. The fragment of
that crate's syntax exercised by the catalogue content-type patterns is
modelled here: literal characters, `.`, the quantifiers `*`, `+`, `?`, and
backslash escapes. Any other metacharacter, a dangling quantifier or a
trailing backslash makes the pattern fail to parse (`Regex::new` returns
`Err`), which `matches_pattern` treats as a non-match. Matching is
unanchored substring search, as with `Regex::is_match`. -/

/-- A single-character regex atom: a literal or the `.` wildcard. -/
inductive RAtom where
  | lit (c : Char)
  | dot
deriving DecidableEq, Repr

/-- A regex piece: an atom with an optional quantifier. -/
inductive RPiece where
  | once (a : RAtom)
  | star (a : RAtom)
  | plus (a : RAtom)
  | opt (a : RAtom)
deriving DecidableEq, Repr

/-- Metacharacters of the regex crate not supported by this model; a
pattern containing one is conservatively treated as failing to parse. -/
def regexMeta (c : Char) : Bool :=
  c = '(' || c = ')' || c = '[' || c = ']' || c = '|' || c = '^' || c = '$'
    || c = '\x7b' || c = '\x7d'

/-- The atom denoted by an unescaped pattern character. -/
def atomOf (c : Char) : RAtom :=
  if c = '.' then .dot else .lit c

/-- Parse a pattern into a sequence of pieces; `none` models
`Regex::new` returning `Err`. -/
def parseRegex : List Char → Option (List RPiece)
  | [] => some []
  | c :: rest =>
    if c = '\\' then
      match rest with
      | [] => none
      | e :: '*' :: r => (parseRegex r).map (RPiece.star (.lit e) :: ·)
      | e :: '+' :: r => (parseRegex r).map (RPiece.plus (.lit e) :: ·)
      | e :: '?' :: r => (parseRegex r).map (RPiece.opt (.lit e) :: ·)
      | e :: r => (parseRegex r).map (RPiece.once (.lit e) :: ·)
    else if c = '*' || c = '+' || c = '?' || regexMeta c then none
    else
      match rest with
      | '*' :: r => (parseRegex r).map (RPiece.star (atomOf c) :: ·)
      | '+' :: r => (parseRegex r).map (RPiece.plus (atomOf c) :: ·)
      | '?' :: r => (parseRegex r).map (RPiece.opt (atomOf c) :: ·)
      | r => (parseRegex r).map (RPiece.once (atomOf c) :: ·)

/-- Does an atom match one character? (`.` matches anything but a
newline, as in the regex crate's default mode.) -/
def atomMatches (a : RAtom) (c : Char) : Bool :=
  match a with
  | .lit c₁ => c₁ == c
  | .dot => c != '\n'

/-- Does the piece sequence match the empty character list? -/
def matchNil : List RPiece → Bool
  | [] => true
  | .once _ :: _ => false
  | .plus _ :: _ => false
  | .star _ :: ps => matchNil ps
  | .opt _ :: ps => matchNil ps

/-- One step of matching against a non-empty character list `c :: s`:
`next ps` continues the match of `ps` against the remaining characters
`s` after consuming `c`. -/
def matchCons (next : List RPiece → Bool) (c : Char) : List RPiece → Bool
  | [] => true
  | .once a :: ps => atomMatches a c && next ps
  | .star a :: ps => matchCons next c ps || (atomMatches a c && next (.star a :: ps))
  | .plus a :: ps => atomMatches a c && next (.star a :: ps)
  | .opt a :: ps => matchCons next c ps || (atomMatches a c && next ps)

/-- Does the piece sequence match some prefix of the character list?
(Pieces matched greedily-or-not via backtracking: `once` consumes one
matching character, `star` matches zero or more, `plus` one or more,
`opt` zero or one.) -/
def matchFrom : List Char → List RPiece → Bool
  | [], ps => matchNil ps
  | c :: s, ps => matchCons (matchFrom s) c ps

/-- Does the piece sequence match some prefix of the character list? -/
def matchSeq (ps : List RPiece) (s : List Char) : Bool :=
  matchFrom s ps

/-- Unanchored search: does the piece sequence match starting at some
position of the character list? Models `Regex::is_match`. -/
def searchMatch (ps : List RPiece) : List Char → Bool
  | [] => matchSeq ps []
  | c :: s => matchSeq ps (c :: s) || searchMatch ps s

/-- The `ContentType` of the external `pact_models` crate, modelled at its
interface: `full` is what `to_string()` renders (type/subtype plus any
parameters), `base` is what `base_type()` renders. -/
structure ContentType where
  full : String
  base : String
deriving DecidableEq, Repr

/-- `matches_pattern` from `catalogue_manager.rs`: compile the pattern and
test it against the full content type string and against the base type; a
pattern that fails to compile is a non-match. -/
def matches_pattern (pattern : String) (content_type : ContentType) : Bool :=
  match parseRegex pattern.data with
  | some ps => searchMatch ps content_type.full.data || searchMatch ps content_type.base.data
  | none => false

/-- `ContentMatcher` wrapper from `content.rs`. -/
structure ContentMatcher where
  catalogue_entry : CatalogueEntry
deriving DecidableEq, Repr

/-- Does a catalogue entry offer a content matcher for the content type?
(The predicate inside `find_content_matcher`: the entry is a
`CONTENT_MATCHER` and some `;`-separated, trimmed pattern of its
`content-types` value matches.) -/
def content_matcher_pred (content_type : ContentType) (entry : CatalogueEntry) : Bool :=
  entry.entry_type == CatalogueEntryType.CONTENT_MATCHER &&
    match alLookup "content-types" entry.values with
    | some content_types =>
      (splitOnChar ';' content_types.data).any
        (fun ct => matches_pattern (trimChars ct).asString content_type)
    | none => false

/-- `find_content_matcher` from `catalogue_manager.rs`: the first entry of
the register (scan order of the values) that is a content matcher with a
matching pattern. -/
def find_content_matcher (content_type : ContentType) (cat : CatalogueRegister) :
    Option ContentMatcher :=
  ((cat.map Prod.snd).find? (content_matcher_pred content_type)).map ContentMatcher.mk

/-! ## Plugin lifecycle data model (`plugin_manager.rs`) -/

/-- `PluginDependency` from `plugin_models.rs`: a plugin name and an
optional version. -/
structure PluginDependency where
  name : String
  version : Option String
deriving DecidableEq, Repr

/-- Modelled from the spec: `PactPlugin` lives in `plugin_models.rs`, which
is not under `src/`; per the spec a running plugin owns its manifest, its
process handle (`childId` here stands for the process/port identity) and a
reference count. -/
structure PactPlugin where
  manifest : PactPluginManifest
  childId : Nat
  access_count : Nat
deriving DecidableEq, Repr

/-- Modelled from the spec: a freshly started plugin's reference count is
initialized to 1 (`PactPlugin::new` in the missing `plugin_models.rs`). -/
def PactPlugin.new (manifest : PactPluginManifest) (childId : Nat) : PactPlugin :=
  { manifest := manifest, childId := childId, access_count := 1 }

/-- Modelled from the spec: `update_access` increments the reference count
of the running plugin. -/
def PactPlugin.update_access (p : PactPlugin) : PactPlugin :=
  { p with access_count := p.access_count + 1 }

/-- Modelled from the spec: `drop_access` decrements the reference count
and returns the new count together with the updated plugin. -/
def PactPlugin.drop_access (p : PactPlugin) : Nat × PactPlugin :=
  (p.access_count - 1, { p with access_count := p.access_count - 1 })

/-- The mutable state of `plugin_manager.rs`: the two global registers,
the catalogue register, and the set of child processes that have been
killed (recording `kill` calls). -/
structure PluginState where
  plugin_manifest_register : List (String × PactPluginManifest)
  plugin_register : List (String × PactPlugin)
  catalogue_register : CatalogueRegister
  killed : List Nat
deriving DecidableEq, Repr

/-- The outcomes of the effectful collaborators of `load_plugin`:
`dir_manifests` is the list of manifests found by scanning the plugin
directory (`none` when the directory does not exist), `start_result` is
the child process identity when `start_plugin_process` succeeds,
`handshake_result` is the catalogue of the init response when the
handshake RPC succeeds. -/
structure LoadEnv where
  dir_manifests : Option (List PactPluginManifest)
  start_result : Option Nat
  handshake_result : Option (List ProtoCatalogueEntry)
deriving Repr

/-- Rust `String::cmp` is byte-wise lexicographic order on the UTF-8
encoding, which coincides with lexicographic order on code points:
strict lexicographic order on character lists. -/
def strLtChars : List Char → List Char → Bool
  | [], [] => false
  | [], _ :: _ => true
  | _ :: _, [] => false
  | a :: as, b :: bs => decide (a < b) || (a == b && strLtChars as bs)

/-- Rust `String::cmp`'s strict order on strings. -/
def strLt (a b : String) : Bool :=
  strLtChars a.data b.data

/-- One step of Rust `Iterator::max_by` with elements compared by
`String::cmp` on their version: keep the current maximum unless the next
element is at least as large (the later element wins ties). -/
def max_by_step {α : Type} (version_of : α → String) (acc : Option α) (x : α) : Option α :=
  match acc with
  | none => some x
  | some a => if strLt (version_of x) (version_of a) then some a else some x

/-- Rust `Iterator::max_by` with versions compared by `String::cmp`
(byte-wise lexicographic order). -/
def max_by_version {α : Type} (version_of : α → String) (l : List α) : Option α :=
  l.foldl (max_by_step version_of) none

/-- `lookup_plugin_inner` from `plugin_manager.rs`, together with the key
of the entry found (the source returns `&mut PactPlugin`, whose location
the key records): exact `name/version` key lookup when the dependency has
a version, otherwise the maximum of the name-matching entries by
`String::cmp` on `manifest.version`. -/
def lookup_plugin_entry (plugin : PluginDependency)
    (plugin_register : List (String × PactPlugin)) : Option (String × PactPlugin) :=
  match plugin.version with
  | some version =>
    let key := plugin.name ++ "/" ++ version
    (alLookup key plugin_register).map (fun p => (key, p))
  | none =>
    max_by_version (fun kv => kv.2.manifest.version)
      (plugin_register.filter (fun kv => kv.2.manifest.name == plugin.name))

/-- `lookup_plugin_inner` from `plugin_manager.rs` (the found plugin). -/
def lookup_plugin_inner (plugin : PluginDependency)
    (plugin_register : List (String × PactPlugin)) : Option PactPlugin :=
  (lookup_plugin_entry plugin plugin_register).map Prod.snd

/-- `lookup_plugin_manifest` from `plugin_manager.rs`: exact
`name/version` key lookup when the dependency has a version, otherwise the
maximum of the name-matching cached manifests by `String::cmp` on
`version`. -/
def lookup_plugin_manifest (plugin : PluginDependency)
    (manifest_register : List (String × PactPluginManifest)) : Option PactPluginManifest :=
  match plugin.version with
  | some version => alLookup (plugin.name ++ "/" ++ version) manifest_register
  | none =>
    (max_by_version (fun kv => kv.2.version)
      (manifest_register.filter (fun kv => kv.2.name == plugin.name))).map Prod.snd

/-- The manifest-match test of `load_manifest_from_disk`: the name is
equal and the version is unconstrained or equal. -/
def manifest_matches (plugin_dep : PluginDependency) (m : PactPluginManifest) : Bool :=
  m.name == plugin_dep.name && (plugin_dep.version.isNone || plugin_dep.version == some m.version)

/-- `load_manifest_from_disk` from `plugin_manager.rs`: fail if the plugin
directory is absent; otherwise adopt the first scanned manifest matching
the dependency, cache it in the manifest register under `name/version`,
and return it; fail if none matches. -/
def load_manifest_from_disk (plugin_dep : PluginDependency) (env : LoadEnv)
    (st : PluginState) : Except String PactPluginManifest × PluginState :=
  match env.dir_manifests with
  | none => (.error "Plugin directory does not exist", st)
  | some found =>
    match found.find? (manifest_matches plugin_dep) with
    | some manifest =>
      let key := manifest.name ++ "/" ++ manifest.version
      (.ok manifest,
        { st with plugin_manifest_register := alInsert key manifest st.plugin_manifest_register })
    | none => (.error "Plugin was not found", st)

/-- `load_plugin_manifest` from `plugin_manager.rs`: the cached manifest
if present, else the disk scan. -/
def load_plugin_manifest (plugin_dep : PluginDependency) (env : LoadEnv)
    (st : PluginState) : Except String PactPluginManifest × PluginState :=
  match lookup_plugin_manifest plugin_dep st.plugin_manifest_register with
  | some manifest => (.ok manifest, st)
  | none => load_manifest_from_disk plugin_dep env st

/-- `initialise_plugin` from `plugin_manager.rs`: only the `exec`
executable type is supported; start the process, perform the init
handshake (on failure the just-started process is killed and the error
propagated), register the returned catalogue entries, and insert the new
running plugin under `name/version`. -/
def initialise_plugin (manifest : PactPluginManifest) (env : LoadEnv)
    (st : PluginState) : Except String PactPlugin × PluginState :=
  if manifest.executable_type = "exec" then
    match env.start_result with
    | none => (.error "Failed to start the plugin process", st)
    | some pid =>
      match env.handshake_result with
      | none =>
        (.error "Failed to send init request to the plugin", { st with killed := pid :: st.killed })
      | some catalogue =>
        let st₁ :=
          { st with catalogue_register := register_plugin_entries manifest catalogue st.catalogue_register }
        let plugin := PactPlugin.new manifest pid
        let key := manifest.name ++ "/" ++ manifest.version
        (.ok plugin, { st₁ with plugin_register := alInsert key plugin st₁.plugin_register })
  else (.error "Plugin executable type is not supported", st)

/-- `load_plugin` from `plugin_manager.rs`: under the register lock, if a
running instance matches the dependency, increment its reference count in
place and return it; otherwise resolve the manifest and initialise the
plugin. -/
def load_plugin (plugin : PluginDependency) (env : LoadEnv)
    (st : PluginState) : Except String PactPlugin × PluginState :=
  match lookup_plugin_entry plugin st.plugin_register with
  | some (key, found) =>
    let updated := found.update_access
    (.ok updated, { st with plugin_register := alInsert key updated st.plugin_register })
  | none =>
    match load_plugin_manifest plugin env st with
    | (.error e, st₁) => (.error e, st₁)
    | (.ok manifest, st₁) => initialise_plugin manifest env st₁

/-- The state transformer of one `load_plugin` call (discarding the
returned value). -/
def load_plugin_state (plugin : PluginDependency) (env : LoadEnv)
    (st : PluginState) : PluginState :=
  (load_plugin plugin env st).2

/-- `shutdown_plugin` from `plugin_manager.rs`: kill the process and
remove the plugin's catalogue entries (by plugin name). -/
def shutdown_plugin (plugin : PactPlugin) (st : PluginState) : PluginState :=
  { st with
      killed := plugin.childId :: st.killed
      catalogue_register := remove_plugin_entries plugin.manifest.name st.catalogue_register }

/-- `drop_plugin_access` from `plugin_manager.rs`: look up the running
instance matching the dependency; if none, do nothing; otherwise decrement
its reference count in place and, if the new count is zero, shut the
plugin down and remove it from the register under
`manifest.name/manifest.version`. -/
def drop_plugin_access (plugin : PluginDependency) (st : PluginState) : PluginState :=
  match lookup_plugin_entry plugin st.plugin_register with
  | none => st
  | some (foundKey, p) =>
    let key := p.manifest.name ++ "/" ++ p.manifest.version
    let dropped := p.drop_access
    let st₁ := { st with plugin_register := alInsert foundKey dropped.2 st.plugin_register }
    if dropped.1 = 0 then
      let st₂ := shutdown_plugin dropped.2 st₁
      { st₂ with plugin_register := alRemove key st₂.plugin_register }
    else st₁

/-! ## Semantic version ordering (modelled from the spec)

Modelled from the spec: the spec requires version selection "by semantic
version ordering" (a total order over dot-separated numeric components);
no such order exists in `src/`, the source compares version strings with
`String::cmp`. The definitions below follow the spec's words and are used
only to compare the source's behaviour with the spec's requirement. -/

/-- Modelled from the spec: the numeric value of one version component. -/
def componentToNat (l : List Char) : Nat :=
  l.foldl (fun n c => n * 10 + (c.toNat - 48)) 0

/-- Modelled from the spec: the dot-separated numeric components of a
semantic version string. -/
def semverComponents (s : String) : List Nat :=
  (splitOnChar '.' s.data).map componentToNat

/-- Lexicographic strict order on lists of naturals. -/
def natListLt : List Nat → List Nat → Bool
  | [], [] => false
  | [], _ :: _ => true
  | _ :: _, [] => false
  | x :: xs, y :: ys => x < y || (x == y && natListLt xs ys)

/-- Modelled from the spec: strict semantic-version order, comparing the
dot-separated numeric components lexicographically. -/
def semverLt (a b : String) : Bool :=
  natListLt (semverComponents a) (semverComponents b)

/-! ## Auxiliary definitions and sample data used in the statements -/

/-- The last element of a list satisfying a predicate: the final writer
for a key when bindings are inserted left to right. -/
def findLast {α : Type} (p : α → Bool) : List α → Option α
  | [] => none
  | x :: xs =>
    match findLast p xs with
    | some y => some y
    | none => if p x then some x else none

/-- A concrete plugin manifest for the name `foo` at a given version. -/
def fooManifest (version : String) : PactPluginManifest :=
  { name := "foo", version := version, executable_type := "exec",
    entry_point := "run", entry_points := [], plugin_dir := "/plugins/foo" }

/-- A concrete core catalogue entry (the spec's concrete scenario
registers the core entry `type: Interaction, key: "http"`). -/
def httpCoreEntry : CatalogueEntry :=
  { entry_type := .INTERACTION, provider_type := .CORE, plugin := none,
    key := "http", values := [] }

/-- A second core entry deriving the same key as `httpCoreEntry` but with
different values. -/
def httpCoreEntry2 : CatalogueEntry :=
  { entry_type := .INTERACTION, provider_type := .CORE, plugin := none,
    key := "http", values := [("v", "2")] }

/-- A concrete content-matcher catalogue entry whose `content-types`
value is the spec's pattern list. -/
def jsonMatcherEntry : CatalogueEntry :=
  { entry_type := .CONTENT_MATCHER, provider_type := .PLUGIN, plugin := none,
    key := "plugin/test/content-matcher/json",
    values := [("content-types", "application/json;application/.*\\+json")] }

/-- A concrete handshake catalogue entry as returned by a plugin's init
response. -/
def csvProtoEntry : ProtoCatalogueEntry :=
  { rtype := .ContentMatcher, key := "csv", values := [("content-types", "text/csv")] }

end PactPlugins

/-! ## Helper lemmas: association lists -/

namespace PactPlugins

theorem alLookup_insert_self {α : Type} (k : String) (v : α) (l : List (String × α)) :
    alLookup k (alInsert k v l) = some v := by
  induction l with
  | nil => simp [alInsert, alLookup]
  | cons kv rest ih =>
    obtain ⟨k₁, v₁⟩ := kv
    by_cases h : k₁ = k
    · simp [alInsert, alLookup, h]
    · simp [alInsert, alLookup, h, ih]

theorem alLookup_insert_ne {α : Type} (k k₂ : String) (v : α) (l : List (String × α))
    (hne : k₂ ≠ k) : alLookup k₂ (alInsert k v l) = alLookup k₂ l := by
  have hne₂ : k ≠ k₂ := Ne.symm hne
  induction l with
  | nil => simp [alInsert, alLookup, hne₂]
  | cons kv rest ih =>
    obtain ⟨k₁, v₁⟩ := kv
    by_cases h : k₁ = k
    · subst h
      simp [alInsert, alLookup, hne₂]
    · simp [alInsert, alLookup, h, ih]

theorem alInsert_insert_same {α : Type} (k : String) (v w : α) (l : List (String × α)) :
    alInsert k v (alInsert k w l) = alInsert k v l := by
  induction l with
  | nil => simp [alInsert]
  | cons kv rest ih =>
    obtain ⟨k₁, v₁⟩ := kv
    by_cases h : k₁ = k
    · simp [alInsert, h]
    · simp [alInsert, h, ih]

theorem alInsert_self {α : Type} (k : String) (v : α) (l : List (String × α))
    (h : alLookup k l = some v) : alInsert k v l = l := by
  induction l with
  | nil => simp [alLookup] at h
  | cons kv rest ih =>
    obtain ⟨k₁, v₁⟩ := kv
    by_cases hk : k₁ = k
    · subst hk
      simp only [alLookup, if_pos rfl] at h
      simp only [alInsert, if_pos rfl]
      simp_all
    · simp only [alLookup, if_neg hk] at h
      simp [alInsert, hk, ih h]

theorem alLookup_remove_self {α : Type} (k : String) (l : List (String × α)) :
    alLookup k (alRemove k l) = none := by
  induction l with
  | nil => simp [alRemove, alLookup]
  | cons kv rest ih =>
    obtain ⟨k₁, v₁⟩ := kv
    by_cases h : k₁ = k
    · simpa [alRemove, List.filter_cons, h] using ih
    · simpa [alRemove, List.filter_cons, h, alLookup] using ih

theorem alLookup_remove_ne {α : Type} (k k₂ : String) (l : List (String × α))
    (hne : k₂ ≠ k) : alLookup k₂ (alRemove k l) = alLookup k₂ l := by
  induction l with
  | nil => simp [alRemove, alLookup]
  | cons kv rest ih =>
    obtain ⟨k₁, v₁⟩ := kv
    by_cases h : k₁ = k
    · subst h
      simpa [alRemove, List.filter_cons, alLookup, Ne.symm hne] using ih
    · by_cases h₂ : k₁ = k₂
      · subst h₂
        simp [alRemove, List.filter_cons, hne, alLookup]
      · simpa [alRemove, List.filter_cons, h, alLookup, h₂] using ih

theorem alLookup_eq_none_iff {α : Type} (k : String) (l : List (String × α)) :
    alLookup k l = none ↔ k ∉ alKeys l := by
  induction l with
  | nil => simp [alLookup, alKeys]
  | cons kv rest ih =>
    obtain ⟨k₁, v₁⟩ := kv
    simp only [alKeys, List.map_cons, List.mem_cons]
    by_cases h : k₁ = k
    · subst h
      simp [alLookup]
    · simp only [alLookup, if_neg h]
      rw [ih]
      simp [alKeys, Ne.symm h]

theorem alKeys_insert {α : Type} (k : String) (v : α) (l : List (String × α)) :
    alKeys (alInsert k v l) = if k ∈ alKeys l then alKeys l else alKeys l ++ [k] := by
  induction l with
  | nil => simp [alInsert, alKeys]
  | cons kv rest ih =>
    obtain ⟨k₁, v₁⟩ := kv
    by_cases h : k₁ = k
    · subst h
      simp [alInsert, alKeys]
    · simp only [alInsert, if_neg h, alKeys, List.map_cons] at ih ⊢
      rw [ih]
      by_cases hm : k ∈ List.map Prod.fst rest
      · simp [List.mem_cons, hm, Ne.symm h]
      · simp [List.mem_cons, hm, Ne.symm h]

theorem alKeys_insert_nodup {α : Type} (k : String) (v : α) (l : List (String × α))
    (h : (alKeys l).Nodup) : (alKeys (alInsert k v l)).Nodup := by
  rw [alKeys_insert]
  by_cases hm : k ∈ alKeys l
  · simpa [hm]
  · simp [hm, List.nodup_append, h]

end PactPlugins

/-! ## Helper lemmas: catalogue registry -/

namespace PactPlugins

theorem alLookup_removeAll {α : Type} (ks : List String) (k : String) (l : List (String × α)) :
    alLookup k (ks.foldl (fun acc key => alRemove key acc) l) =
      if k ∈ ks then none else alLookup k l := by
  induction ks generalizing l with
  | nil => simp
  | cons k₁ ks ih =>
    simp only [List.foldl_cons, ih, List.mem_cons]
    by_cases h : k = k₁
    · subst h
      by_cases hm : k ∈ ks <;> simp [hm, alLookup_remove_self]
    · simp [h, alLookup_remove_ne k₁ k l h]

theorem remove_plugin_lookup (name k : String) (cat : CatalogueRegister) :
    alLookup k (remove_plugin_entries name cat) =
      if strStartsWith k ("plugin/" ++ name ++ "/") then none else alLookup k cat := by
  simp only [remove_plugin_entries]
  rw [alLookup_removeAll]
  by_cases hp : strStartsWith k ("plugin/" ++ name ++ "/")
  · simp only [hp, if_true]
    by_cases hm : k ∈ (alKeys cat).filter (fun key => strStartsWith key ("plugin/" ++ name ++ "/"))
    · simp [hm]
    · have hk : k ∉ alKeys cat := fun hk => hm (List.mem_filter.mpr ⟨hk, hp⟩)
      simp [hm, (alLookup_eq_none_iff k cat).mpr hk]
  · have hm : k ∉ (alKeys cat).filter (fun key => strStartsWith key ("plugin/" ++ name ++ "/")) :=
      fun hc => hp (List.mem_filter.mp hc).2
    simp [hp, hm]

theorem register_plugin_lookup (plugin : PactPluginManifest)
    (entries : List ProtoCatalogueEntry) (cat : CatalogueRegister) (k : String) :
    alLookup k (register_plugin_entries plugin entries cat) =
      match findLast (fun e => plugin_entry_key plugin e == k) entries with
      | some e => some (plugin_entry_value plugin e)
      | none => alLookup k cat := by
  induction entries generalizing cat with
  | nil => simp [register_plugin_entries, findLast]
  | cons e es ih =>
    simp only [register_plugin_entries, List.foldl_cons] at ih ⊢
    rw [ih]
    cases hf : findLast (fun e => plugin_entry_key plugin e == k) es with
    | some e₁ => simp [findLast, hf]
    | none =>
      simp only [findLast, hf]
      by_cases hk : plugin_entry_key plugin e = k
      · subst hk
        simp [alLookup_insert_self]
      · simp [hk, alLookup_insert_ne _ _ _ _ (Ne.symm hk)]

theorem register_plugin_keys_nodup :
    ∀ (plugin : PactPluginManifest) (entries : List ProtoCatalogueEntry)
      (cat : CatalogueRegister), (alKeys cat).Nodup →
      (alKeys (register_plugin_entries plugin entries cat)).Nodup := by
  intro plugin entries
  induction entries with
  | nil => intro cat h; simpa [register_plugin_entries]
  | cons e es ih =>
    intro cat h
    simp only [register_plugin_entries, List.foldl_cons] at ih ⊢
    exact ih _ (alKeys_insert_nodup _ _ _ h)

theorem core_fold_mono :
    ∀ (entries : List CatalogueEntry) (c : CatalogueRegister) (u : List String)
      (k : String) (v : CatalogueEntry), alLookup k c = some v →
      alLookup k (entries.foldl core_step (c, u)).1 = some v := by
  intro entries
  induction entries with
  | nil => intro c u k v h; simpa
  | cons e es ih =>
    intro c u k v h
    simp only [List.foldl_cons, core_step]
    by_cases hp : (alLookup (core_entry_key e) c).isSome
    · simp only [hp, if_true]
      exact ih c u k v h
    · simp only [hp, if_false]
      apply ih
      by_cases hk : core_entry_key e = k
      · subst hk
        rw [h] at hp
        simp at hp
      · rw [alLookup_insert_ne _ _ _ _ (Ne.symm hk)]
        exact h

theorem core_fold_updated :
    ∀ (entries : List CatalogueEntry) (c : CatalogueRegister) (u : List String) (k : String),
      k ∈ (entries.foldl core_step (c, u)).2 ↔
        k ∈ u ∨ (alLookup k c = none ∧ (alLookup k (entries.foldl core_step (c, u)).1).isSome) := by
  intro entries
  induction entries with
  | nil =>
    intro c u k
    simp only [List.foldl_nil]
    constructor
    · intro h
      exact Or.inl h
    · rintro (h | ⟨h₁, h₂⟩)
      · exact h
      · rw [h₁] at h₂
        simp at h₂
  | cons e es ih =>
    intro c u k
    simp only [List.foldl_cons, core_step]
    by_cases hp : (alLookup (core_entry_key e) c).isSome
    · simp only [hp, if_true]
      exact ih c u k
    · simp only [hp, if_false]
      rw [ih]
      by_cases hk : k = core_entry_key e
      · subst hk
        have h₁ : alLookup (core_entry_key e) c = none := Option.not_isSome_iff_eq_none.mp hp
        have h₂ : (alLookup (core_entry_key e)
            (es.foldl core_step (alInsert (core_entry_key e) e c, core_entry_key e :: u)).1).isSome := by
          rw [core_fold_mono es _ _ (core_entry_key e) e (alLookup_insert_self (core_entry_key e) e c)]
          rfl
        simp [List.mem_cons, h₁, h₂]
      · have hins : alLookup k (alInsert (core_entry_key e) e c) = alLookup k c :=
          alLookup_insert_ne _ _ _ _ hk
        simp [List.mem_cons, hk, hins]

end PactPlugins

/-! ## Claims about the catalogue registry -/

namespace PactPlugins

/-- C5: registering the same plugin's entries a second time replaces the
previously registered entries for that plugin rather than duplicating
them: the register after two identical registrations binds every key to
the same entry as after one (latest-handshake-wins for each exact derived
key), and registration never introduces duplicate keys. -/
theorem register_plugin_entries_idempotent_upsert
    (plugin : PactPluginManifest) (entries : List ProtoCatalogueEntry) (cat : CatalogueRegister) :
    (∀ k, alLookup k (register_plugin_entries plugin entries
          (register_plugin_entries plugin entries cat)) =
        alLookup k (register_plugin_entries plugin entries cat)) ∧
    ((alKeys cat).Nodup → (alKeys (register_plugin_entries plugin entries cat)).Nodup) := by
  constructor
  · intro k
    rw [register_plugin_lookup, register_plugin_lookup]
    cases hf : findLast (fun e => plugin_entry_key plugin e == k) entries with
    | some e => simp [hf]
    | none => simp [hf]
  · intro h
    exact register_plugin_keys_nodup plugin entries cat h

/-- Witness for C5 at a concrete registration. -/
theorem register_plugin_entries_idempotent_upsert_witness :
    (alLookup "plugin/foo/content-matcher/csv"
        (register_plugin_entries (fooManifest "1.0.0") [csvProtoEntry]
          (register_plugin_entries (fooManifest "1.0.0") [csvProtoEntry] [])) =
      alLookup "plugin/foo/content-matcher/csv"
        (register_plugin_entries (fooManifest "1.0.0") [csvProtoEntry] [])) ∧
    (alKeys (register_plugin_entries (fooManifest "1.0.0") [csvProtoEntry] [])).Nodup :=
  ⟨(register_plugin_entries_idempotent_upsert (fooManifest "1.0.0") [csvProtoEntry] []).1 _,
   (register_plugin_entries_idempotent_upsert (fooManifest "1.0.0") [csvProtoEntry] []).2
     (by decide)⟩

/-- C6: core registration inserts entries only for derived keys not
already present: any key previously bound keeps its exact previous entry
(first-writer-wins), and the reported updated keys are exactly the keys
absent before and present after the registration. -/
theorem register_core_entries_first_writer_wins
    (entries : List CatalogueEntry) (cat : CatalogueRegister) :
    (∀ k v, alLookup k cat = some v →
      alLookup k (register_core_entries entries cat).1 = some v) ∧
    (∀ k, k ∈ (register_core_entries entries cat).2 ↔
      alLookup k cat = none ∧ (alLookup k (register_core_entries entries cat).1).isSome) := by
  constructor
  · intro k v h
    exact core_fold_mono entries cat [] k v h
  · intro k
    have h := core_fold_updated entries cat [] k
    simpa [register_core_entries] using h

/-- Witness for C6 at a concrete registration: the second core entry for
the already-present key `core/interaction/http` does not replace the
first, and the updated-keys report for a fresh register names the key. -/
theorem register_core_entries_first_writer_wins_witness :
    (alLookup "core/interaction/http"
        (register_core_entries [httpCoreEntry2]
          [("core/interaction/http", httpCoreEntry)]).1 = some httpCoreEntry) ∧
    ("core/interaction/http" ∈ (register_core_entries [httpCoreEntry] []).2 ↔
      alLookup "core/interaction/http" ([] : CatalogueRegister) = none ∧
        (alLookup "core/interaction/http" (register_core_entries [httpCoreEntry] []).1).isSome) :=
  ⟨(register_core_entries_first_writer_wins [httpCoreEntry2]
      [("core/interaction/http", httpCoreEntry)]).1 _ _ (by decide),
   (register_core_entries_first_writer_wins [httpCoreEntry] []).2 _⟩

/-- C7: removing a plugin's catalogue entries removes exactly the entries
whose namespaced key starts with `plugin/<name>/` and no others; in
particular removing `foo` removes the `plugin/foo/` entry, leaves the
`plugin/foobar/` entry and the core entry unchanged. -/
theorem remove_plugin_entries_exact_prefix :
    (∀ (name k : String) (cat : CatalogueRegister),
      alLookup k (remove_plugin_entries name cat) =
        if strStartsWith k ("plugin/" ++ name ++ "/") then none else alLookup k cat) ∧
    (alLookup "plugin/foo/content-matcher/csv"
        (remove_plugin_entries "foo"
          [("plugin/foo/content-matcher/csv", jsonMatcherEntry),
           ("plugin/foobar/content-matcher/x", jsonMatcherEntry),
           ("core/interaction/http", httpCoreEntry)]) = none ∧
      alLookup "plugin/foobar/content-matcher/x"
        (remove_plugin_entries "foo"
          [("plugin/foo/content-matcher/csv", jsonMatcherEntry),
           ("plugin/foobar/content-matcher/x", jsonMatcherEntry),
           ("core/interaction/http", httpCoreEntry)]) = some jsonMatcherEntry ∧
      alLookup "core/interaction/http"
        (remove_plugin_entries "foo"
          [("plugin/foo/content-matcher/csv", jsonMatcherEntry),
           ("plugin/foobar/content-matcher/x", jsonMatcherEntry),
           ("core/interaction/http", httpCoreEntry)]) = some httpCoreEntry) :=
  ⟨fun name k cat => remove_plugin_lookup name k cat, by decide, by decide, by decide⟩

/-- C8: with a content-matcher entry whose `content-types` is
`application/json;application/.*\+json`, `find_content_matcher` returns
that entry for content type `application/vnd.api+json` and none for
`text/plain`; a pattern that is not a valid regular expression (here a
dangling escape) fails to compile and is treated as a non-match. -/
theorem find_content_matcher_content_types :
    find_content_matcher ⟨"application/vnd.api+json", "application/vnd.api+json"⟩
        [("plugin/test/content-matcher/json", jsonMatcherEntry)] = some ⟨jsonMatcherEntry⟩ ∧
    find_content_matcher ⟨"text/plain", "text/plain"⟩
        [("plugin/test/content-matcher/json", jsonMatcherEntry)] = none ∧
    parseRegex "\\".data = none ∧
    matches_pattern "\\" ⟨"application/vnd.api+json", "application/vnd.api+json"⟩ = false :=
  ⟨by decide, by decide, by decide, by decide⟩

/-- C10: the public conversion `CatalogueEntryType::from(&str)` panics
(modelled as `none`) exactly on the inputs other than the five recognised
names. -/
theorem catalogue_entry_type_from_str_panics_on_unknown (s : String) :
    CatalogueEntryType.fromStr s = none ↔
      s ∉ ["content-matcher", "content-generator", "interaction", "matcher", "mock-server"] := by
  unfold CatalogueEntryType.fromStr
  split_ifs with h₁ h₂ h₃ h₄ h₅ <;> simp_all

end PactPlugins

/-! ## Claims about no-op behaviour on unknown keys -/

namespace PactPlugins

/-- C9: releasing a dependency with no matching running instance leaves
the whole state unchanged (a no-op, never an error), and removing the
catalogue entries of a plugin name with no entries under its prefix
leaves the catalogue unchanged. -/
theorem release_and_remove_unknown_are_noops :
    (∀ (dep : PluginDependency) (st : PluginState),
      lookup_plugin_entry dep st.plugin_register = none → drop_plugin_access dep st = st) ∧
    (∀ (name : String) (cat : CatalogueRegister),
      (∀ kv ∈ cat, strStartsWith kv.1 ("plugin/" ++ name ++ "/") = false) →
      remove_plugin_entries name cat = cat) := by
  constructor
  · intro dep st h
    simp [drop_plugin_access, h]
  · intro name cat h
    simp only [remove_plugin_entries]
    have hnil : (alKeys cat).filter (fun key => strStartsWith key ("plugin/" ++ name ++ "/")) = [] := by
      rw [List.filter_eq_nil_iff]
      intro a ha
      obtain ⟨kv, hkv, rfl⟩ := List.mem_map.mp ha
      simp [h kv hkv]
    rw [hnil]
    rfl

/-- Witness for C9 at a concrete unknown dependency and plugin name. -/
theorem release_and_remove_unknown_are_noops_witness :
    drop_plugin_access ⟨"foo", none⟩ ⟨[], [], [], []⟩ = ⟨[], [], [], []⟩ ∧
    remove_plugin_entries "foo" [("core/interaction/http", httpCoreEntry)] =
      [("core/interaction/http", httpCoreEntry)] :=
  ⟨release_and_remove_unknown_are_noops.1 ⟨"foo", none⟩ ⟨[], [], [], []⟩ (by decide),
   release_and_remove_unknown_are_noops.2 "foo" [("core/interaction/http", httpCoreEntry)]
     (by decide)⟩

end PactPlugins

/-! ## Helper lemmas: the String::cmp order and max_by -/

namespace PactPlugins

theorem strLtChars_trans :
    ∀ {a b c : List Char}, strLtChars a b = true → strLtChars b c = true →
      strLtChars a c = true := by
  intro a
  induction a with
  | nil =>
    intro b c h₁ h₂
    cases b with
    | nil => simp [strLtChars] at h₁
    | cons y ys =>
      cases c with
      | nil => simp [strLtChars] at h₂
      | cons z zs => simp [strLtChars]
  | cons x xs ih =>
    intro b c h₁ h₂
    cases b with
    | nil => simp [strLtChars] at h₁
    | cons y ys =>
      cases c with
      | nil => simp [strLtChars] at h₂
      | cons z zs =>
        simp only [strLtChars, Bool.or_eq_true, decide_eq_true_eq, Bool.and_eq_true,
          beq_iff_eq] at h₁ h₂ ⊢
        rcases h₁ with h₁ | ⟨rfl, h₁⟩
        · rcases h₂ with h₂ | ⟨rfl, h₂⟩
          · exact Or.inl (lt_trans h₁ h₂)
          · exact Or.inl h₁
        · rcases h₂ with h₂ | ⟨rfl, h₂⟩
          · exact Or.inl h₂
          · exact Or.inr ⟨rfl, ih h₁ h₂⟩

theorem strLtChars_trichotomy :
    ∀ (a b : List Char), strLtChars a b = true ∨ strLtChars b a = true ∨ a = b := by
  intro a
  induction a with
  | nil =>
    intro b
    cases b with
    | nil => right; right; rfl
    | cons y ys => left; simp [strLtChars]
  | cons x xs ih =>
    intro b
    cases b with
    | nil => right; left; simp [strLtChars]
    | cons y ys =>
      rcases lt_trichotomy x y with h | h | h
      · left
        simp [strLtChars, h]
      · subst h
        rcases ih ys with h | h | h
        · left
          simp [strLtChars, h]
        · right; left
          simp [strLtChars, h]
        · right; right
          rw [h]
      · right; left
        simp [strLtChars, h]

theorem strLtChars_irrefl : ∀ a : List Char, strLtChars a a = false := by
  intro a
  induction a with
  | nil => rfl
  | cons x xs ih => simp [strLtChars, ih]

theorem strLt_irrefl (a : String) : strLt a a = false :=
  strLtChars_irrefl a.data

theorem strLt_trans {a b c : String} (h₁ : strLt a b = true) (h₂ : strLt b c = true) :
    strLt a c = true :=
  strLtChars_trans h₁ h₂

theorem strLt_trichotomy (a b : String) : strLt a b = true ∨ strLt b a = true ∨ a = b := by
  rcases strLtChars_trichotomy a.data b.data with h | h | h
  · exact Or.inl h
  · exact Or.inr (Or.inl h)
  · right; right
    cases a
    cases b
    exact congrArg String.mk h

theorem strLt_not_lt {a b : String} (h : strLt a b = false) : strLt b a = true ∨ b = a := by
  rcases strLt_trichotomy a b with h₁ | h₁ | h₁
  · rw [h₁] at h
    cases h
  · exact Or.inl h₁
  · exact Or.inr h₁.symm

theorem max_by_step_spec {α : Type} (f : α → String) :
    ∀ (l : List α) (acc : Option α) (m : α),
      l.foldl (max_by_step f) acc = some m →
      (acc = some m ∨ m ∈ l) ∧
      (∀ x, acc = some x → strLt (f m) (f x) = false) ∧
      (∀ x ∈ l, strLt (f m) (f x) = false) := by
  intro l
  induction l with
  | nil =>
    intro acc m h
    simp only [List.foldl_nil] at h
    refine ⟨Or.inl h, ?_, by simp⟩
    intro x hx
    rw [h] at hx
    obtain rfl : m = x := by simpa using hx
    exact strLt_irrefl _
  | cons y l ih =>
    intro acc m h
    simp only [List.foldl_cons] at h
    obtain ⟨ih₁, ih₂, ih₃⟩ := ih (max_by_step f acc y) m h
    have hz : ∀ x, max_by_step f acc y = some x → strLt (f m) (f x) = false := ih₂
    constructor
    · rcases ih₁ with hz₁ | hz₁
      · cases acc with
        | none =>
          simp only [max_by_step, Option.some.injEq] at hz₁
          exact Or.inr (by simp [hz₁])
        | some a =>
          simp only [max_by_step] at hz₁
          by_cases hlt : strLt (f y) (f a) = true
          · rw [if_pos hlt] at hz₁
            exact Or.inl hz₁
          · rw [if_neg hlt] at hz₁
            obtain rfl : y = m := by simpa using hz₁
            exact Or.inr (List.mem_cons_self _ _)
      · exact Or.inr (List.mem_cons_of_mem _ hz₁)
    constructor
    · intro x hx
      subst hx
      cases hlt : strLt (f y) (f x) with
      | true =>
        apply hz
        simp [max_by_step, hlt]
      | false =>
        have hy : strLt (f m) (f y) = false := by
          apply hz
          simp [max_by_step, hlt]
        rcases strLt_not_lt hlt with h' | h'
        · cases hq : strLt (f m) (f x) with
          | false => rfl
          | true =>
            have : strLt (f m) (f y) = true := strLt_trans hq h'
            rw [hy] at this
            cases this
        · rw [h']
          exact hy
    · intro x hx
      rcases List.mem_cons.mp hx with rfl | hx₂
      · cases acc with
        | none =>
          apply hz
          simp [max_by_step]
        | some a =>
          by_cases hlt : strLt (f x) (f a) = true
          · have ha : strLt (f m) (f a) = false := by
              apply hz
              simp [max_by_step, hlt]
            cases hq : strLt (f m) (f x) with
            | false => rfl
            | true =>
              have : strLt (f m) (f a) = true := strLt_trans hq hlt
              rw [ha] at this
              cases this
          · apply hz
            simp [max_by_step, hlt]
      · exact ih₃ x hx₂

theorem max_by_version_spec {α : Type} (f : α → String) (l : List α) (m : α)
    (h : max_by_version f l = some m) :
    m ∈ l ∧ ∀ x ∈ l, strLt (f m) (f x) = false := by
  obtain ⟨h₁, _, h₃⟩ := max_by_step_spec f l none m h
  rcases h₁ with h₁ | h₁
  · cases h₁
  · exact ⟨h₁, h₃⟩

end PactPlugins

/-! ## Claims about latest-version selection -/

namespace PactPlugins

/-- C1 (amended): when the dependency has no version, manifest resolution
and running-instance lookup each return an entry whose version string is
maximal among the name-matching entries under Rust's `String::cmp` order
(byte-wise lexicographic string comparison, not semantic version
ordering); both layers use this same total order, so they agree on what
"latest" means. -/
theorem lookup_latest_is_string_max
    (dep : PluginDependency) (mreg : List (String × PactPluginManifest))
    (preg : List (String × PactPlugin)) (hv : dep.version = none) :
    (∀ m, lookup_plugin_manifest dep mreg = some m →
      (∃ kv ∈ mreg, kv.2 = m) ∧ m.name = dep.name ∧
      ∀ kv ∈ mreg, kv.2.name = dep.name → strLt m.version kv.2.version = false) ∧
    (∀ p, lookup_plugin_inner dep preg = some p →
      (∃ kv ∈ preg, kv.2 = p) ∧ p.manifest.name = dep.name ∧
      ∀ kv ∈ preg, kv.2.manifest.name = dep.name →
        strLt p.manifest.version kv.2.manifest.version = false) := by
  constructor
  · intro m hm
    simp only [lookup_plugin_manifest, hv, Option.map_eq_some'] at hm
    obtain ⟨kv, hkv, rfl⟩ := hm
    obtain ⟨hmem, hmax⟩ := max_by_version_spec _ _ _ hkv
    have hf := List.mem_filter.mp hmem
    refine ⟨⟨kv, hf.1, rfl⟩, by simpa using hf.2, ?_⟩
    intro kv₂ hkv₂ hname
    exact hmax kv₂ (List.mem_filter.mpr ⟨hkv₂, by simpa using hname⟩)
  · intro p hp
    simp only [lookup_plugin_inner, lookup_plugin_entry, hv, Option.map_eq_some'] at hp
    obtain ⟨kv, hkv, rfl⟩ := hp
    obtain ⟨hmem, hmax⟩ := max_by_version_spec _ _ _ hkv
    have hf := List.mem_filter.mp hmem
    refine ⟨⟨kv, hf.1, rfl⟩, by simpa using hf.2, ?_⟩
    intro kv₂ hkv₂ hname
    exact hmax kv₂ (List.mem_filter.mpr ⟨hkv₂, by simpa using hname⟩)

/-- Witness for the amended C1 at a concrete manifest register. -/
theorem lookup_latest_is_string_max_witness :
    (∃ kv ∈ ([("foo/1.0.0", fooManifest "1.0.0"), ("foo/1.2.0", fooManifest "1.2.0")] :
        List (String × PactPluginManifest)), kv.2 = fooManifest "1.2.0") ∧
    (fooManifest "1.2.0").name = "foo" ∧
    (∀ kv ∈ ([("foo/1.0.0", fooManifest "1.0.0"), ("foo/1.2.0", fooManifest "1.2.0")] :
        List (String × PactPluginManifest)), kv.2.name = "foo" →
      strLt (fooManifest "1.2.0").version kv.2.version = false) :=
  (lookup_latest_is_string_max ⟨"foo", none⟩
      [("foo/1.0.0", fooManifest "1.0.0"), ("foo/1.2.0", fooManifest "1.2.0")]
      [] rfl).1 (fooManifest "1.2.0") (by decide)

/-- C1 counterexample: with cached manifests (and running instances) for
`foo` at versions `9.0.0` and `10.0.0`, the unversioned lookups select
`9.0.0` in both layers, although `10.0.0` is the larger semantic version:
selection is not by semantic version ordering. -/
theorem lookup_latest_not_semver_max :
    lookup_plugin_manifest ⟨"foo", none⟩
        [("foo/9.0.0", fooManifest "9.0.0"), ("foo/10.0.0", fooManifest "10.0.0")] =
      some (fooManifest "9.0.0") ∧
    ("foo/10.0.0", fooManifest "10.0.0") ∈
      ([("foo/9.0.0", fooManifest "9.0.0"), ("foo/10.0.0", fooManifest "10.0.0")] :
        List (String × PactPluginManifest)) ∧
    (fooManifest "10.0.0").name = "foo" ∧
    semverLt (fooManifest "9.0.0").version (fooManifest "10.0.0").version = true ∧
    lookup_plugin_inner ⟨"foo", none⟩
        [("foo/9.0.0", PactPlugin.new (fooManifest "9.0.0") 1),
         ("foo/10.0.0", PactPlugin.new (fooManifest "10.0.0") 2)] =
      some (PactPlugin.new (fooManifest "9.0.0") 1) :=
  ⟨by decide, by decide, by decide, by decide, by decide⟩

end PactPlugins

/-! ## Claims about load failure -/

namespace PactPlugins

theorem load_plugin_manifest_preserves (p : PluginDependency) (env : LoadEnv) (st : PluginState) :
    (load_plugin_manifest p env st).2.plugin_register = st.plugin_register ∧
    (load_plugin_manifest p env st).2.catalogue_register = st.catalogue_register ∧
    (load_plugin_manifest p env st).2.killed = st.killed := by
  simp only [load_plugin_manifest, load_manifest_from_disk]
  split
  · exact ⟨rfl, rfl, rfl⟩
  · split
    · exact ⟨rfl, rfl, rfl⟩
    · split
      · exact ⟨rfl, rfl, rfl⟩
      · exact ⟨rfl, rfl, rfl⟩

theorem initialise_plugin_error_register (m : PactPluginManifest) (env : LoadEnv)
    (st : PluginState) (msg : String) (st₁ : PluginState)
    (h : initialise_plugin m env st = (.error msg, st₁)) :
    st₁.plugin_register = st.plugin_register := by
  simp only [initialise_plugin] at h
  by_cases he : m.executable_type = "exec"
  · rw [if_pos he] at h
    cases hs : env.start_result with
    | none =>
      rw [hs] at h
      injection h with h₁ h₂
      rw [← h₂]
    | some pid =>
      rw [hs] at h
      cases hh : env.handshake_result with
      | none =>
        rw [hh] at h
        injection h with h₁ h₂
        rw [← h₂]
      | some catalogue =>
        rw [hh] at h
        injection h with h₁ h₂
        cases h₁
  · rw [if_neg he] at h
    injection h with h₁ h₂
    rw [← h₂]

/-- C2: if a `load_plugin` call fails at any stage (manifest resolution,
process start, or handshake) it returns an error and leaves the
running-plugin register exactly as it was: no entry inserted and no entry
modified. -/
theorem load_plugin_error_leaves_register_untouched
    (plugin : PluginDependency) (env : LoadEnv) (st : PluginState) (msg : String)
    (st₁ : PluginState) (h : load_plugin plugin env st = (.error msg, st₁)) :
    st₁.plugin_register = st.plugin_register := by
  simp only [load_plugin] at h
  cases hl : lookup_plugin_entry plugin st.plugin_register with
  | some kv =>
    obtain ⟨key, found⟩ := kv
    rw [hl] at h
    simp only at h
    injection h with h₁ h₂
    cases h₁
  | none =>
    rw [hl] at h
    rcases hm : load_plugin_manifest plugin env st with ⟨r, st₂⟩
    rw [hm] at h
    have hreg : st₂.plugin_register = st.plugin_register := by
      have := (load_plugin_manifest_preserves plugin env st).1
      rw [hm] at this
      exact this
    cases r with
    | error e =>
      simp only at h
      injection h with h₁ h₂
      rw [← h₂]
      exact hreg
    | ok manifest =>
      simp only at h
      rw [initialise_plugin_error_register manifest env st₂ msg st₁ h]
      exact hreg

/-- Witness for C2: a load whose process start fails returns an error and
leaves the (empty) running-plugin register empty, even though the
manifest was resolved and cached. -/
theorem load_plugin_error_leaves_register_untouched_witness :
    load_plugin ⟨"foo", none⟩ ⟨some [fooManifest "1.0.0"], none, none⟩ ⟨[], [], [], []⟩ =
      (.error "Failed to start the plugin process",
        ⟨[("foo/1.0.0", fooManifest "1.0.0")], [], [], []⟩) ∧
    (⟨[("foo/1.0.0", fooManifest "1.0.0")], [], [], []⟩ : PluginState).plugin_register =
      (⟨[], [], [], []⟩ : PluginState).plugin_register :=
  ⟨rfl,
   load_plugin_error_leaves_register_untouched ⟨"foo", none⟩
     ⟨some [fooManifest "1.0.0"], none, none⟩ ⟨[], [], [], []⟩
     "Failed to start the plugin process"
     ⟨[("foo/1.0.0", fooManifest "1.0.0")], [], [], []⟩ rfl⟩

end PactPlugins

/-! ## Claims about release and reference counting -/

namespace PactPlugins

theorem drop_plugin_access_decrement (mnf : PactPluginManifest) (cid c : Nat) (st : PluginState)
    (h : alLookup (mnf.name ++ "/" ++ mnf.version) st.plugin_register = some ⟨mnf, cid, c + 2⟩) :
    drop_plugin_access ⟨mnf.name, some mnf.version⟩ st =
      { st with plugin_register :=
          alInsert (mnf.name ++ "/" ++ mnf.version) ⟨mnf, cid, c + 1⟩ st.plugin_register } := by
  simp [drop_plugin_access, lookup_plugin_entry, h, PactPlugin.drop_access]

theorem drop_plugin_access_zero (mnf : PactPluginManifest) (cid : Nat) (st : PluginState)
    (h : alLookup (mnf.name ++ "/" ++ mnf.version) st.plugin_register = some ⟨mnf, cid, 1⟩) :
    drop_plugin_access ⟨mnf.name, some mnf.version⟩ st =
      { st with
          plugin_register :=
            alRemove (mnf.name ++ "/" ++ mnf.version)
              (alInsert (mnf.name ++ "/" ++ mnf.version) ⟨mnf, cid, 0⟩ st.plugin_register)
          catalogue_register := remove_plugin_entries mnf.name st.catalogue_register
          killed := cid :: st.killed } := by
  simp [drop_plugin_access, lookup_plugin_entry, h, PactPlugin.drop_access, shutdown_plugin]

theorem drop_iterate (mnf : PactPluginManifest) (cid : Nat) :
    ∀ (c : Nat) (st : PluginState),
      alLookup (mnf.name ++ "/" ++ mnf.version) st.plugin_register = some ⟨mnf, cid, c + 1⟩ →
      (drop_plugin_access ⟨mnf.name, some mnf.version⟩)^[c] st =
        { st with plugin_register :=
            alInsert (mnf.name ++ "/" ++ mnf.version) ⟨mnf, cid, 1⟩ st.plugin_register } := by
  intro c
  induction c with
  | zero =>
    intro st h
    simp only [Function.iterate_zero, id]
    rw [alInsert_self _ _ _ h]
  | succ c ih =>
    intro st h
    rw [Function.iterate_succ_apply, drop_plugin_access_decrement mnf cid c st h,
      ih _ (alLookup_insert_self _ _ _)]
    simp only [alInsert_insert_same]

/-- C4: for a running plugin instance with reference count `n`, releasing
its dependency exactly `n` times removes the instance from the register,
kills its process and removes every catalogue entry under its plugin
prefix; releasing only `n - 1` times leaves it registered (at count 1),
its process unkilled, and the catalogue untouched. -/
theorem release_reference_count_times_stops_plugin
    (p : PactPlugin) (st : PluginState) (n : Nat) (hn : 0 < n)
    (hcount : p.access_count = n)
    (hlook : alLookup (p.manifest.name ++ "/" ++ p.manifest.version) st.plugin_register = some p) :
    alLookup (p.manifest.name ++ "/" ++ p.manifest.version)
        (((drop_plugin_access ⟨p.manifest.name, some p.manifest.version⟩)^[n - 1] st).plugin_register) =
      some ⟨p.manifest, p.childId, 1⟩ ∧
    ((drop_plugin_access ⟨p.manifest.name, some p.manifest.version⟩)^[n - 1] st).killed = st.killed ∧
    ((drop_plugin_access ⟨p.manifest.name, some p.manifest.version⟩)^[n - 1] st).catalogue_register =
      st.catalogue_register ∧
    alLookup (p.manifest.name ++ "/" ++ p.manifest.version)
        (((drop_plugin_access ⟨p.manifest.name, some p.manifest.version⟩)^[n] st).plugin_register) =
      none ∧
    p.childId ∈ ((drop_plugin_access ⟨p.manifest.name, some p.manifest.version⟩)^[n] st).killed ∧
    ∀ k, strStartsWith k ("plugin/" ++ p.manifest.name ++ "/") = true →
      alLookup k
          (((drop_plugin_access ⟨p.manifest.name, some p.manifest.version⟩)^[n] st).catalogue_register) =
        none := by
  obtain ⟨mnf, cid, count⟩ := p
  simp only at hcount hlook ⊢
  subst hcount
  obtain ⟨w, rfl⟩ : ∃ w, count = w + 1 := ⟨count - 1, (Nat.succ_pred_eq_of_pos hn).symm⟩
  simp only [Nat.add_sub_cancel]
  have hS := drop_iterate mnf cid w st hlook
  have hlast : (drop_plugin_access ⟨mnf.name, some mnf.version⟩)^[w + 1] st =
      drop_plugin_access ⟨mnf.name, some mnf.version⟩
        ((drop_plugin_access ⟨mnf.name, some mnf.version⟩)^[w] st) :=
    Function.iterate_succ_apply' _ _ _
  rw [hS] at hlast
  rw [drop_plugin_access_zero mnf cid _ (alLookup_insert_self _ _ _)] at hlast
  refine ⟨?_, ?_, ?_, ?_, ?_, ?_⟩
  · rw [hS]
    exact alLookup_insert_self _ _ _
  · rw [hS]
  · rw [hS]
  · rw [hlast]
    exact alLookup_remove_self _ _
  · rw [hlast]
    exact List.mem_cons_self _ _
  · intro k hk
    rw [hlast]
    simp only [remove_plugin_lookup, hk, if_true]

/-- Witness for C4: a plugin at reference count 2; one release keeps it
registered and running, the second kills it and clears its catalogue
entries. -/
theorem release_reference_count_times_stops_plugin_witness :
    alLookup "foo/1.0.0"
        (((drop_plugin_access ⟨"foo", some "1.0.0"⟩)^[1]
          (⟨[], [("foo/1.0.0", ⟨fooManifest "1.0.0", 7, 2⟩)],
            [("plugin/foo/content-matcher/csv", jsonMatcherEntry)], []⟩ :
            PluginState)).plugin_register) =
      some ⟨fooManifest "1.0.0", 7, 1⟩ ∧
    7 ∈ ((drop_plugin_access ⟨"foo", some "1.0.0"⟩)^[2]
        (⟨[], [("foo/1.0.0", ⟨fooManifest "1.0.0", 7, 2⟩)],
          [("plugin/foo/content-matcher/csv", jsonMatcherEntry)], []⟩ :
          PluginState)).killed ∧
    alLookup "plugin/foo/content-matcher/csv"
        (((drop_plugin_access ⟨"foo", some "1.0.0"⟩)^[2]
          (⟨[], [("foo/1.0.0", ⟨fooManifest "1.0.0", 7, 2⟩)],
            [("plugin/foo/content-matcher/csv", jsonMatcherEntry)], []⟩ :
            PluginState)).catalogue_register) = none := by
  have h := release_reference_count_times_stops_plugin ⟨fooManifest "1.0.0", 7, 2⟩
    ⟨[], [("foo/1.0.0", ⟨fooManifest "1.0.0", 7, 2⟩)],
      [("plugin/foo/content-matcher/csv", jsonMatcherEntry)], []⟩ 2
    (by decide) rfl (by decide)
  exact ⟨h.1, h.2.2.2.2.1, h.2.2.2.2.2 "plugin/foo/content-matcher/csv" (by decide)⟩

end PactPlugins

/-! ## Claims about repeated loads -/

namespace PactPlugins

theorem load_plugin_found (m : PactPluginManifest) (cid c : Nat) (env : LoadEnv)
    (st : PluginState)
    (hreg : st.plugin_register = [(m.name ++ "/" ++ m.version, ⟨m, cid, c⟩)]) :
    load_plugin ⟨m.name, none⟩ env st =
      (.ok ⟨m, cid, c + 1⟩,
        { st with plugin_register := [(m.name ++ "/" ++ m.version, ⟨m, cid, c + 1⟩)] }) := by
  simp [load_plugin, lookup_plugin_entry, hreg, max_by_version, max_by_step,
    PactPlugin.update_access, alInsert]

theorem load_plugin_first (m : PactPluginManifest) (pid : Nat)
    (dms : List PactPluginManifest) (es : List ProtoCatalogueEntry)
    (cat : CatalogueRegister) (kl : List Nat)
    (hfind : dms.find? (manifest_matches ⟨m.name, none⟩) = some m)
    (hexec : m.executable_type = "exec") :
    load_plugin ⟨m.name, none⟩ ⟨some dms, some pid, some es⟩ (⟨[], [], cat, kl⟩ : PluginState) =
      (.ok ⟨m, pid, 1⟩,
        ⟨[(m.name ++ "/" ++ m.version, m)],
         [(m.name ++ "/" ++ m.version, ⟨m, pid, 1⟩)],
         register_plugin_entries m es cat, kl⟩) := by
  have h₁ : lookup_plugin_entry ⟨m.name, none⟩
      ((⟨[], [], cat, kl⟩ : PluginState).plugin_register) = none := rfl
  have h₂ : load_plugin_manifest ⟨m.name, none⟩ ⟨some dms, some pid, some es⟩
      (⟨[], [], cat, kl⟩ : PluginState) =
      (.ok m, ⟨[(m.name ++ "/" ++ m.version, m)], [], cat, kl⟩) := by
    simp only [load_plugin_manifest, lookup_plugin_manifest, List.filter_nil, max_by_version,
      List.foldl_nil, Option.map_none']
    simp only [load_manifest_from_disk, hfind]
    rfl
  simp only [load_plugin, h₁, h₂]
  simp only [initialise_plugin, hexec, if_true, PactPlugin.new]
  rfl

theorem load_state_iterate (m : PactPluginManifest) (cid : Nat) (env : LoadEnv) :
    ∀ (j : Nat) (st : PluginState) (c : Nat),
      st.plugin_register = [(m.name ++ "/" ++ m.version, ⟨m, cid, c⟩)] →
      ((load_plugin_state ⟨m.name, none⟩ env)^[j] st).plugin_register =
        [(m.name ++ "/" ++ m.version, ⟨m, cid, c + j⟩)] := by
  intro j
  induction j with
  | zero =>
    intro st c hreg
    simpa using hreg
  | succ j ih =>
    intro st c hreg
    rw [Function.iterate_succ_apply]
    have hstep : load_plugin_state ⟨m.name, none⟩ env st =
        { st with plugin_register := [(m.name ++ "/" ++ m.version, ⟨m, cid, c + 1⟩)] } := by
      simp only [load_plugin_state, load_plugin_found m cid c env st hreg]
    rw [hstep, ih _ (c + 1) rfl]
    have harith : c + 1 + j = c + (j + 1) := by omega
    rw [harith]

/-- C3: for a dependency with no version constraint, a sequence of `n`
`load` calls with no intervening release (starting from empty registers,
with the plugin directory, process start and handshake all succeeding)
returns the same running instance each time — the `k`-th call returning
it at reference count `k` — and after the `n` un-released loads the
registered instance's reference count is exactly `n`. -/
theorem repeated_load_returns_same_instance
    (m : PactPluginManifest) (pid : Nat) (dms : List PactPluginManifest)
    (es : List ProtoCatalogueEntry) (cat : CatalogueRegister) (kl : List Nat) (n : Nat)
    (hfind : dms.find? (manifest_matches ⟨m.name, none⟩) = some m)
    (hexec : m.executable_type = "exec") (hn : 0 < n) :
    (∀ k, k < n →
      (load_plugin ⟨m.name, none⟩ ⟨some dms, some pid, some es⟩
          ((load_plugin_state ⟨m.name, none⟩ ⟨some dms, some pid, some es⟩)^[k]
            (⟨[], [], cat, kl⟩ : PluginState))).1 =
        .ok ⟨m, pid, k + 1⟩) ∧
    ((load_plugin_state ⟨m.name, none⟩ ⟨some dms, some pid, some es⟩)^[n]
        (⟨[], [], cat, kl⟩ : PluginState)).plugin_register =
      [(m.name ++ "/" ++ m.version, ⟨m, pid, n⟩)] := by
  have hfirst := load_plugin_first m pid dms es cat kl hfind hexec
  have hstate : ∀ j, ((load_plugin_state ⟨m.name, none⟩ ⟨some dms, some pid, some es⟩)^[j + 1]
      (⟨[], [], cat, kl⟩ : PluginState)).plugin_register =
      [(m.name ++ "/" ++ m.version, ⟨m, pid, 1 + j⟩)] := by
    intro j
    rw [Function.iterate_succ_apply]
    have hstep : load_plugin_state ⟨m.name, none⟩ ⟨some dms, some pid, some es⟩
        (⟨[], [], cat, kl⟩ : PluginState) =
        ⟨[(m.name ++ "/" ++ m.version, m)],
         [(m.name ++ "/" ++ m.version, ⟨m, pid, 1⟩)],
         register_plugin_entries m es cat, kl⟩ := by
      simp only [load_plugin_state, hfirst]
    rw [hstep, load_state_iterate m pid _ j _ 1 rfl]
  constructor
  · intro k hk
    cases k with
    | zero =>
      simp only [Function.iterate_zero, id]
      rw [hfirst]
    | succ j =>
      have hstep := load_plugin_found m pid (1 + j) ⟨some dms, some pid, some es⟩
        ((load_plugin_state ⟨m.name, none⟩ ⟨some dms, some pid, some es⟩)^[j + 1]
          (⟨[], [], cat, kl⟩ : PluginState)) (hstate j)
      rw [hstep]
      simp [Nat.add_comm 1 j]
  · obtain ⟨w, rfl⟩ : ∃ w, n = w + 1 := ⟨n - 1, (Nat.succ_pred_eq_of_pos hn).symm⟩
    rw [hstate w]
    simp [Nat.add_comm 1 w]

/-- Witness for C3: two successive loads of `foo` with no release; the
second returns the same instance (same process identity 7) at count 2,
and the register holds it at count 2. -/
theorem repeated_load_returns_same_instance_witness :
    (load_plugin ⟨"foo", none⟩ ⟨some [fooManifest "1.0.0"], some 7, some [csvProtoEntry]⟩
        ((load_plugin_state ⟨"foo", none⟩
            ⟨some [fooManifest "1.0.0"], some 7, some [csvProtoEntry]⟩)^[1]
          (⟨[], [], [], []⟩ : PluginState))).1 =
      .ok ⟨fooManifest "1.0.0", 7, 2⟩ ∧
    ((load_plugin_state ⟨"foo", none⟩
        ⟨some [fooManifest "1.0.0"], some 7, some [csvProtoEntry]⟩)^[2]
        (⟨[], [], [], []⟩ : PluginState)).plugin_register =
      [("foo/1.0.0", ⟨fooManifest "1.0.0", 7, 2⟩)] := by
  have h := repeated_load_returns_same_instance (fooManifest "1.0.0") 7 [fooManifest "1.0.0"]
    [csvProtoEntry] [] [] 2 (by decide) rfl (by decide)
  exact ⟨h.1 1 (by decide), h.2⟩

end PactPlugins
